import Mathlib

/-!
Shallow embedding of the rust-api repository (src/src/models.rs,
src/src/handlers.rs, src/src/error.rs) and verification of its
specification claims.

Modelling choices:
* `Uuid` is modelled as an opaque natural number; handlers that call
  `Uuid::new_v4()` take the generated id as an extra input `newId`.
* `DateTime<Utc>` is modelled as an integer epoch-seconds timestamp;
  handlers that call `Utc::now()` take the clock value as an extra
  input `now`.
* The `HashMap<Uuid, User>` inside `Storage` is modelled as an
  association list `List (Nat × User)`; `HashMap` never holds two
  entries with the same key, which the association-list operations
  respect because `create` is guarded by a key-presence check.
* The `RwLock` is erased: each handler is a function from the storage
  state (as found when the lock is acquired) to a result together with
  the storage state at lock release; this is the sequential,
  single-lock-scope semantics of each handler body.
* Rust `str::trim`, `str::to_lowercase`, `str::contains('@')` and
  `str::is_empty` are modelled by executable functions on the string's
  character list (`Str.trim`, `Str.to_lowercase`, `Str.contains`,
  `Str.is_empty`); `to_lowercase` uses the per-character ASCII lowering
  `Char.toLower`, which agrees with Rust on all inputs in scope here.
-/

namespace RustApi

namespace Str

/-- Whitespace trimming on a character list: drop leading and trailing
whitespace (Rust `str::trim`). -/
def trimList (l : List Char) : List Char :=
  ((l.dropWhile Char.isWhitespace).reverse.dropWhile Char.isWhitespace).reverse

/-- Rust `str::trim`. -/
def trim (s : String) : String := ⟨trimList s.data⟩

/-- Rust `str::to_lowercase` (per-character lowering). -/
def to_lowercase (s : String) : String := ⟨s.data.map Char.toLower⟩

/-- Rust `str::contains(c)` for a single character pattern. -/
def contains (s : String) (c : Char) : Bool := s.data.any (fun d => d == c)

/-- Rust `str::is_empty`. -/
def is_empty (s : String) : Bool := s.data.isEmpty

end Str

/-- Represents a user in the system (models.rs, `struct User`). -/
structure User where
  id : Nat
  name : String
  email : String
  created_at : Int
  updated_at : Int
deriving DecidableEq, Repr

/-- Request payload for creating a new user (models.rs, `CreateUserRequest`). -/
structure CreateUserRequest where
  name : String
  email : String
deriving DecidableEq, Repr

/-- Request payload for updating an existing user (models.rs, `UpdateUserRequest`). -/
structure UpdateUserRequest where
  name : Option String
  email : Option String
deriving DecidableEq, Repr

/-- Main error type for the API (error.rs, `enum ApiError`). -/
inductive ApiError where
  | NotFound (msg : String)
  | BadRequest (msg : String)
  | Internal (msg : String)
  | Conflict (msg : String)
deriving DecidableEq, Repr

deriving instance DecidableEq for Except

/-- In-memory storage for users (models.rs, `struct Storage`), a
`HashMap<Uuid, User>` modelled as an association list. -/
structure Storage where
  users : List (Nat × User)
deriving DecidableEq, Repr

namespace Storage

/-- `Storage::new` — creates a new empty storage instance. -/
def new : Storage := ⟨[]⟩

/-- `Storage::get_all` — all stored users (`values().cloned().collect()`). -/
def get_all (s : Storage) : List User := s.users.map (fun p => p.2)

/-- `Storage::get` — `users.get(id).cloned()`. -/
def get (s : Storage) (id : Nat) : Option User :=
  (s.users.find? (fun p => p.1 == id)).map (fun p => p.2)

/-- `HashMap::contains_key` on the `users` map. -/
def contains_key (s : Storage) (id : Nat) : Bool :=
  (s.users.find? (fun p => p.1 == id)).isSome

/-- `Storage::create` — inserts the user if its id is not already a key;
returns whether insertion occurred, never overwrites. -/
def create (s : Storage) (user : User) : Bool × Storage :=
  if s.contains_key user.id then (false, s)
  else (true, ⟨s.users ++ [(user.id, user)]⟩)

/-- `Storage::update` — `users.get_mut(id)`: if the id is present, apply the
caller-supplied mutation to the stored record and return `true`; otherwise
return `false` leaving the map unchanged. -/
def update (s : Storage) (id : Nat) (updater : User → User) : Bool × Storage :=
  match s.get id with
  | some _ =>
      (true, ⟨s.users.map (fun p => if p.1 == id then (p.1, updater p.2) else p)⟩)
  | none => (false, s)

/-- `Storage::delete` — `users.remove(id).is_some()`. -/
def delete (s : Storage) (id : Nat) : Bool × Storage :=
  match s.get id with
  | some _ => (true, ⟨s.users.filter (fun p => !(p.1 == id))⟩)
  | none => (false, s)

/-- `Storage::email_exists` — linear scan for an exact match against the
stored emails (`users.values().any(|user| user.email == email)`). -/
def email_exists (s : Storage) (email : String) : Bool :=
  s.users.any (fun p => p.2.email == email)

end Storage

/-- `handlers::get_user` — the record if found, else `NotFound`.
Read-only, so only the result is returned. -/
def get_user (s : Storage) (id : Nat) : Except ApiError User :=
  match s.get id with
  | some user => .ok user
  | none => .error (.NotFound ("User with id " ++ toString id ++ " not found"))

/-- `handlers::list_users` — all users plus their count. -/
def list_users (s : Storage) : List User × Nat :=
  let users := s.get_all
  (users, users.length)

/-- `handlers::create_user` — validate, check raw-email existence, then
insert a freshly assembled record. `now` is the value of `Utc::now()` and
`newId` the value of `Uuid::new_v4()` taken during the call. The second
component is the storage state when the handler releases the write lock. -/
def create_user (s : Storage) (payload : CreateUserRequest) (now : Int) (newId : Nat) :
    Except ApiError User × Storage :=
  if Str.is_empty (Str.trim payload.name) then
    (.error (.BadRequest "Name cannot be empty"), s)
  else if Str.is_empty (Str.trim payload.email) then
    (.error (.BadRequest "Email cannot be empty"), s)
  else if !(Str.contains payload.email '@') then
    (.error (.BadRequest "Invalid email format"), s)
  else if s.email_exists payload.email then
    (.error (.Conflict ("User with email " ++ payload.email ++ " already exists")), s)
  else
    let user : User :=
      { id := newId, name := Str.trim payload.name, email := Str.to_lowercase (Str.trim payload.email),
        created_at := now, updated_at := now }
    match s.create user with
    | (false, s2) => (.error (.Internal "Failed to create user due to ID collision"), s2)
    | (true, s2) => (.ok user, s2)

/-- The mutation closure passed by `handlers::update_user` into
`Storage::update`: apply only the supplied fields, then refresh
`updated_at`. -/
def apply_update (payload : UpdateUserRequest) (now : Int) (user : User) : User :=
  let user1 :=
    match payload.name with
    | some name => { user with name := Str.trim name }
    | none => user
  let user2 :=
    match payload.email with
    | some email => { user1 with email := Str.to_lowercase (Str.trim email) }
    | none => user1
  { user2 with updated_at := now }

/-- The email-validation block of `handlers::update_user`, run only when the
payload supplies an email: empty → BadRequest, missing `@` → BadRequest,
normalized email found on a different record → Conflict. -/
def validate_update_email (s : Storage) (id : Nat) (email : String) : Option ApiError :=
  if Str.is_empty (Str.trim email) then some (.BadRequest "Email cannot be empty")
  else if !(Str.contains email '@') then some (.BadRequest "Invalid email format")
  else
    match s.get_all.find? (fun u => u.email == Str.to_lowercase (Str.trim email)) with
    | some existing_user =>
        if existing_user.id != id then
          some (.Conflict ("Email " ++ email ++ " is already in use"))
        else none
    | none => none

/-- `handlers::update_user` — existence check, email validation (when
supplied), name validation (when supplied), then `Storage::update` with the
field-mutation closure followed by a re-read; a vanished record maps to
`Internal`. `now` is the value of `Utc::now()` taken inside the closure. -/
def update_user (s : Storage) (id : Nat) (payload : UpdateUserRequest) (now : Int) :
    Except ApiError User × Storage :=
  if (s.get id).isNone then
    (.error (.NotFound ("User with id " ++ toString id ++ " not found")), s)
  else
    let emailCheck : Option ApiError :=
      match payload.email with
      | some email => validate_update_email s id email
      | none => none
    match emailCheck with
    | some e => (.error e, s)
    | none =>
      let nameCheck : Option ApiError :=
        match payload.name with
        | some name =>
            if Str.is_empty (Str.trim name) then some (.BadRequest "Name cannot be empty") else none
        | none => none
      match nameCheck with
      | some e => (.error e, s)
      | none =>
        match s.update id (apply_update payload now) with
        | (true, s2) =>
          match s2.get id with
          | some updated_user => (.ok updated_user, s2)
          | none => (.error (.Internal "Failed to update user"), s2)
        | (false, s2) => (.error (.Internal "Failed to update user"), s2)

/-- `handlers::delete_user` — remove if present, else `NotFound`. -/
def delete_user (s : Storage) (id : Nat) : Except ApiError Unit × Storage :=
  match s.delete id with
  | (false, s2) => (.error (.NotFound ("User with id " ++ toString id ++ " not found")), s2)
  | (true, s2) => (.ok (), s2)

/-! Helper lemmas about the storage operations. -/

namespace Storage

/-- The entry transformation used by `update` preserves keys, so a search by
key commutes with it. -/
lemma find?_map_entry (l : List (Nat × User)) (id id2 : Nat) (f : User → User) :
    (l.map (fun p => if p.1 == id then (p.1, f p.2) else p)).find? (fun p => p.1 == id2)
      = (l.find? (fun p => p.1 == id2)).map
          (fun p => if p.1 == id then (p.1, f p.2) else p) := by
  rw [List.find?_map]
  have hpred : ((fun p : Nat × User => p.1 == id2)
        ∘ (fun p : Nat × User => if p.1 == id then (p.1, f p.2) else p))
      = fun p : Nat × User => p.1 == id2 := by
    funext p
    by_cases h : p.1 = id <;> simp [h]
  rw [hpred]

/-- When the target id is present, `update` reports success and the new map
is the entry-wise transformation of the old one. -/
lemma update_eq_of_get_some (s : Storage) (id : Nat) (u : User) (f : User → User)
    (h : s.get id = some u) :
    s.update id f
      = (true, ⟨s.users.map (fun p => if p.1 == id then (p.1, f p.2) else p)⟩) := by
  unfold update
  rw [h]

/-- Reading any id after an `update` of a present id: the target id now holds
the transformed record, every other id is untouched. -/
lemma get_update_of_get_some (s : Storage) (id : Nat) (u : User) (f : User → User)
    (h : s.get id = some u) (id2 : Nat) :
    ((s.update id f).2).get id2
      = (s.get id2).map (fun v => if id2 == id then f v else v) := by
  rw [update_eq_of_get_some s id u f h]
  show Storage.get _ id2 = _
  unfold get
  rw [find?_map_entry]
  cases hf : s.users.find? (fun p => p.1 == id2) with
  | none => rfl
  | some q =>
    have hq : q.1 = id2 := by simpa using List.find?_some hf
    by_cases hid : id2 = id <;> simp [hq, hid]

/-- When the target id is present, `delete` reports success and the new map
drops exactly the entries with that key. -/
lemma delete_eq_of_get_some (s : Storage) (id : Nat) (u : User)
    (h : s.get id = some u) :
    s.delete id = (true, ⟨s.users.filter (fun p => !(p.1 == id))⟩) := by
  unfold delete
  rw [h]

/-- When the target id is absent, `delete` reports failure and leaves the map
unchanged. -/
lemma delete_eq_of_get_none (s : Storage) (id : Nat) (h : s.get id = none) :
    s.delete id = (false, s) := by
  unfold delete
  rw [h]

/-- Reading any id from the map left by removing key `id`: the removed id is
gone, every other id is untouched. -/
lemma get_filter_out_key (s : Storage) (id id2 : Nat) :
    (Storage.mk (s.users.filter (fun p => !(p.1 == id)))).get id2
      = if id2 = id then none else s.get id2 := by
  unfold get
  by_cases he : id2 = id
  · subst he
    rw [if_pos rfl, List.find?_eq_none.mpr, Option.map_none']
    intro x hx
    have hkeep := (List.mem_filter.mp hx).2
    simp only [Bool.not_eq_true'] at hkeep
    simp [hkeep]
  · rw [if_neg he, List.find?_filter]
    have hpred : (fun a : Nat × User =>
          decide ((!(a.1 == id)) = true ∧ (a.1 == id2) = true))
        = fun a : Nat × User => a.1 == id2 := by
      funext a
      by_cases ha : a.1 = id2 <;> simp [ha, he]
    rw [hpred]

/-- `get` is `none` exactly when `contains_key` is `false`. -/
lemma contains_key_eq_false_of_get_none (s : Storage) (id : Nat)
    (h : s.get id = none) : s.contains_key id = false := by
  unfold get at h
  unfold contains_key
  cases hf : s.users.find? (fun p => p.1 == id) with
  | none => rfl
  | some q => rw [hf] at h; simp at h

/-- Appending a fresh entry makes its key readable. -/
lemma get_append_self (s : Storage) (k : Nat) (u : User) (h : s.get k = none) :
    (Storage.mk (s.users ++ [(k, u)])).get k = some u := by
  unfold get at h ⊢
  rw [List.find?_append]
  have hnone : s.users.find? (fun p => p.1 == k) = none := by
    cases hf : s.users.find? (fun p => p.1 == k) with
    | none => rfl
    | some q => rw [hf] at h; simp at h
  rw [hnone]
  simp [List.find?]

end Storage

/-- A list whose filtering by `p` is the singleton `[w]` has `w` as its first
element satisfying `p`. -/
lemma find?_of_filter_eq_singleton {α : Type} (p : α → Bool) (l : List α) (w : α)
    (h : l.filter p = [w]) : l.find? p = some w := by
  induction l with
  | nil => simp at h
  | cons a t ih =>
    rw [List.filter_cons] at h
    by_cases hp : p a = true
    · rw [if_pos hp] at h
      injection h with h1 h2
      rw [List.find?_cons, hp, h1]
    · rw [if_neg hp] at h
      rw [List.find?_cons]
      have hp2 : p a = false := by revert hp; cases p a <;> simp
      rw [hp2]
      exact ih h

/-- The email-validation block of `update_user` never produces an `Internal`
error. -/
lemma validate_update_email_ne_internal (s : Storage) (id : Nat) (email : String)
    (msg : String) : validate_update_email s id email ≠ some (.Internal msg) := by
  unfold validate_update_email
  intro h
  split at h
  · exact ApiError.noConfusion (Option.some.inj h)
  · split at h
    · exact ApiError.noConfusion (Option.some.inj h)
    · split at h
      · split at h
        · exact ApiError.noConfusion (Option.some.inj h)
        · exact Option.noConfusion h
      · exact Option.noConfusion h

/-- When the target id holds record `u` and both the email block and the
name block of `update_user` raise no error, the handler returns the record
with only the supplied fields changed and `updated_at` refreshed, stores
that record under the target id, and leaves every other id untouched. -/
lemma update_user_success_eq (s : Storage) (id : Nat) (u : User)
    (payload : UpdateUserRequest) (now : Int)
    (hget : s.get id = some u)
    (hemail : ∀ e, payload.email = some e → validate_update_email s id e = none)
    (hname : ∀ n, payload.name = some n → Str.is_empty (Str.trim n) = false) :
    (update_user s id payload now
      = (.ok (apply_update payload now u), (s.update id (apply_update payload now)).2))
    ∧ (((update_user s id payload now).2).get id = some (apply_update payload now u))
    ∧ (∀ id2, id2 ≠ id → ((update_user s id payload now).2).get id2 = s.get id2) := by
  have hupd := Storage.update_eq_of_get_some s id u (apply_update payload now) hget
  have hread := Storage.get_update_of_get_some s id u (apply_update payload now) hget id
  rw [hupd] at hread
  rw [hget] at hread
  simp at hread
  have hmain : update_user s id payload now
      = (.ok (apply_update payload now u), (s.update id (apply_update payload now)).2) := by
    obtain ⟨pname, pemail⟩ := payload
    cases pname with
    | none =>
      cases pemail with
      | none => simp [update_user, hget, hupd, hread]
      | some e => simp [update_user, hget, hupd, hread, hemail e rfl]
    | some n =>
      have hn := hname n rfl
      cases pemail with
      | none => simp [update_user, hget, hupd, hread, hn]
      | some e => simp [update_user, hget, hupd, hread, hn, hemail e rfl]
  refine ⟨hmain, ?_, ?_⟩
  · rw [hmain, hupd]
    simpa using hread
  · intro id2 hdiff
    rw [hmain]
    have hr2 := Storage.get_update_of_get_some s id u (apply_update payload now) hget id2
    have hbeq : (id2 == id) = false := by simp [hdiff]
    rw [hbeq] at hr2
    simpa using hr2

/-! Claim theorems. -/

/-- C1: the spec claims that across every sequence of create operations no
two records ever coexist with equal identifiers nor with equal normalized
(trimmed, lowercased) emails. The code violates the email half: starting
from empty storage, creating with email "foo@bar.com" and then with
"Foo@Bar.com" both succeed — `create_user` passes the raw payload email to
`Storage.email_exists` while storing the normalized one — so the final
storage holds two records (ids 1 and 2) whose normalized emails are both
"foo@bar.com". -/
theorem create_email_uniqueness_violated :
    ((create_user Storage.new ⟨"A", "foo@bar.com"⟩ 0 1).1.isOk = true)
    ∧ ((create_user (create_user Storage.new ⟨"A", "foo@bar.com"⟩ 0 1).2
          ⟨"B", "Foo@Bar.com"⟩ 1 2).1.isOk = true)
    ∧ ((create_user (create_user Storage.new ⟨"A", "foo@bar.com"⟩ 0 1).2
          ⟨"B", "Foo@Bar.com"⟩ 1 2).2.get_all.map
            (fun u => (u.id, Str.to_lowercase (Str.trim u.email))))
        = [(1, "foo@bar.com"), (2, "foo@bar.com")] := by
  decide

/-- C2: the spec claims that whenever two create requests have emails equal
after normalization, in any casing, and the first succeeds, the second
returns Conflict. The spec's particular instance holds (creating
"Foo@Bar.com" then "foo@bar.com" yields Conflict, last conjunct), but the
universal claim fails in the reverse casing order: after a successful create
with "foo@bar.com", a create with "Foo@Bar.com" — normalized-equal, first
conjunct — succeeds instead of returning Conflict (third conjunct), because
the uniqueness check compares the raw payload email against the stored
normalized ones. -/
theorem create_second_casing_not_conflict :
    (Str.to_lowercase (Str.trim "Foo@Bar.com") = Str.to_lowercase (Str.trim "foo@bar.com"))
    ∧ ((create_user Storage.new ⟨"A", "foo@bar.com"⟩ 0 1).1
        = .ok ⟨1, "A", "foo@bar.com", 0, 0⟩)
    ∧ ((create_user (create_user Storage.new ⟨"A", "foo@bar.com"⟩ 0 1).2
          ⟨"B", "Foo@Bar.com"⟩ 1 2).1 = .ok ⟨2, "B", "foo@bar.com", 1, 1⟩)
    ∧ ((create_user (create_user Storage.new ⟨"A", "Foo@Bar.com"⟩ 0 1).2
          ⟨"B", "foo@bar.com"⟩ 1 2).1
        = .error (.Conflict "User with email foo@bar.com already exists")) := by
  decide

/-- C3 counterexample: the claim's fourth check is "normalized-email
uniqueness (Conflict)", but with a stored record whose (already normalized)
email is "foo@bar.com", a create request for "Foo@Bar.com" — whose
normalized email equals it (first conjunct) — succeeds instead of hitting a
Conflict (second conjunct): the code's fourth check tests existence of the
raw payload email, not of the normalized one. -/
theorem create_check_order_counterexample :
    (((Storage.mk [(1, ⟨1, "A", "foo@bar.com", 0, 0⟩)]).get_all.map
        (fun u => u.email)).contains (Str.to_lowercase (Str.trim "Foo@Bar.com")) = true)
    ∧ ((create_user (Storage.mk [(1, ⟨1, "A", "foo@bar.com", 0, 0⟩)])
        ⟨"B", "Foo@Bar.com"⟩ 1 2).1.isOk = true) := by
  decide

/-- C3 (amended): for every create request the checks are applied in the
order: empty trimmed name (BadRequest), then empty trimmed email
(BadRequest), then email lacking '@' (BadRequest), then existence of the
raw supplied email among the stored emails (Conflict); and whenever the
create handler returns any error, the storage mapping is exactly as it was
before the request. -/
theorem create_check_order_and_no_partial_state
    (s : Storage) (p : CreateUserRequest) (now : Int) (newId : Nat) :
    ((create_user s p now newId).1.isOk = false → (create_user s p now newId).2 = s)
    ∧ (Str.is_empty (Str.trim p.name) = true →
        create_user s p now newId = (.error (.BadRequest "Name cannot be empty"), s))
    ∧ (Str.is_empty (Str.trim p.name) = false →
        Str.is_empty (Str.trim p.email) = true →
        create_user s p now newId = (.error (.BadRequest "Email cannot be empty"), s))
    ∧ (Str.is_empty (Str.trim p.name) = false →
        Str.is_empty (Str.trim p.email) = false →
        Str.contains p.email '@' = false →
        create_user s p now newId = (.error (.BadRequest "Invalid email format"), s))
    ∧ (Str.is_empty (Str.trim p.name) = false →
        Str.is_empty (Str.trim p.email) = false →
        Str.contains p.email '@' = true →
        s.email_exists p.email = true →
        create_user s p now newId
          = (.error (.Conflict ("User with email " ++ p.email ++ " already exists")), s)) := by
  refine ⟨?_, ?_, ?_, ?_, ?_⟩
  · by_cases h1 : Str.is_empty (Str.trim p.name) = true
    · simp [create_user, h1]
    · by_cases h2 : Str.is_empty (Str.trim p.email) = true
      · simp [create_user, h1, h2]
      · by_cases h3 : Str.contains p.email '@' = true
        · by_cases h4 : s.email_exists p.email = true
          · simp [create_user, h1, h2, h3, h4]
          · by_cases h5 : s.contains_key newId = true
            · simp [create_user, Storage.create, h1, h2, h3, h4, h5]
            · simp [create_user, Storage.create, h1, h2, h3, h4, h5, Except.isOk, Except.toBool]
        · simp [create_user, h1, h2, h3]
  · intro h1
    simp [create_user, h1]
  · intro h1 h2
    simp [create_user, h1, h2]
  · intro h1 h2 h3
    simp [create_user, h1, h2, h3]
  · intro h1 h2 h3 h4
    simp [create_user, h1, h2, h3, h4]

/-- Witness for C3 (amended): at concrete inputs, a request with
whitespace-only name and an invalid email is rejected for the name — the
name check precedes the email checks — and a request failing only the email
format check is rejected for the format; in both cases storage is returned
unchanged. -/
theorem create_check_order_and_no_partial_state_witness :
    (create_user Storage.new ⟨" ", "nomail"⟩ 0 1
      = (.error (.BadRequest "Name cannot be empty"), Storage.new))
    ∧ (create_user Storage.new ⟨"A", "nomail"⟩ 0 1
      = (.error (.BadRequest "Invalid email format"), Storage.new)) := by
  constructor
  · exact (create_check_order_and_no_partial_state Storage.new ⟨" ", "nomail"⟩ 0 1).2.1
      (by decide)
  · exact (create_check_order_and_no_partial_state Storage.new ⟨"A", "nomail"⟩ 0 1).2.2.2.1
      (by decide) (by decide) (by decide)

/-- C4: a successful update supplying only `name` on an existing record
leaves `id`, `email` and `created_at` unchanged, sets `name` to the trimmed
supplied name, and sets `updated_at` to the clock value taken during the
update — strictly greater than the previous `updated_at` under the
precondition that this clock value is strictly later. -/
theorem update_name_only_frame (s : Storage) (id : Nat) (u : User)
    (name : String) (now : Int)
    (hget : s.get id = some u)
    (hname : Str.is_empty (Str.trim name) = false)
    (hclock : u.updated_at < now) :
    ((update_user s id ⟨some name, none⟩ now).1
        = .ok ⟨u.id, Str.trim name, u.email, u.created_at, now⟩)
    ∧ (((update_user s id ⟨some name, none⟩ now).2).get id
        = some ⟨u.id, Str.trim name, u.email, u.created_at, now⟩)
    ∧ (u.updated_at
        < (⟨u.id, Str.trim name, u.email, u.created_at, now⟩ : User).updated_at) := by
  have h := update_user_success_eq s id u ⟨some name, none⟩ now hget
      (fun e he => nomatch he)
      (fun n hn => Option.some.inj hn ▸ hname)
  have happ : apply_update ⟨some name, none⟩ now u
      = ⟨u.id, Str.trim name, u.email, u.created_at, now⟩ := rfl
  refine ⟨?_, ?_, hclock⟩
  · rw [h.1]
    simp [happ]
  · rw [← happ]
    exact h.2.1

/-- Witness for C4: a concrete name-only update succeeds with the name
trimmed, the email and creation timestamp untouched, and the update
timestamp advanced from 0 to 5. -/
theorem update_name_only_frame_witness :
    (update_user ⟨[(1, ⟨1, "A", "a@x.com", 0, 0⟩)]⟩ 1 ⟨some " New Name ", none⟩ 5).1
      = .ok ⟨1, "New Name", "a@x.com", 0, 5⟩ :=
  (update_name_only_frame ⟨[(1, ⟨1, "A", "a@x.com", 0, 0⟩)]⟩ 1
    ⟨1, "A", "a@x.com", 0, 0⟩ " New Name " 5 (by decide) (by decide) (by decide)).1

/-- C6: an update aimed at an id absent from storage returns NotFound
whatever the payload contains — the existence check precedes every
validation — and the storage mapping is returned unchanged. -/
theorem update_not_found (s : Storage) (id : Nat) (payload : UpdateUserRequest)
    (now : Int) (h : s.get id = none) :
    update_user s id payload now
      = (.error (.NotFound ("User with id " ++ toString id ++ " not found")), s) := by
  simp [update_user, h]

/-- Witness for C6: updating a missing id with a payload whose name and
email would both fail validation still yields NotFound and leaves the
single-record storage unchanged. -/
theorem update_not_found_witness :
    update_user ⟨[(1, ⟨1, "A", "a@x.com", 0, 0⟩)]⟩ 3 ⟨some "", some ""⟩ 5
      = (.error (.NotFound ("User with id " ++ toString 3 ++ " not found")),
         ⟨[(1, ⟨1, "A", "a@x.com", 0, 0⟩)]⟩) :=
  update_not_found ⟨[(1, ⟨1, "A", "a@x.com", 0, 0⟩)]⟩ 3 ⟨some "", some ""⟩ 5 (by decide)

/-- C10: an update supplying neither field on an existing record passes
validation, refreshes only `updated_at` (to the clock value taken during
the update), keeps `id`, `name`, `email` and `created_at`, and leaves every
other record untouched. -/
theorem update_no_fields_refreshes_timestamp_only (s : Storage) (id : Nat)
    (u : User) (now : Int) (hget : s.get id = some u) :
    ((update_user s id ⟨none, none⟩ now).1
        = .ok ⟨u.id, u.name, u.email, u.created_at, now⟩)
    ∧ (((update_user s id ⟨none, none⟩ now).2).get id
        = some ⟨u.id, u.name, u.email, u.created_at, now⟩)
    ∧ (∀ id2, id2 ≠ id →
        ((update_user s id ⟨none, none⟩ now).2).get id2 = s.get id2) := by
  have h := update_user_success_eq s id u ⟨none, none⟩ now hget
      (fun e he => nomatch he) (fun n hn => nomatch hn)
  have happ : apply_update ⟨none, none⟩ now u
      = ⟨u.id, u.name, u.email, u.created_at, now⟩ := rfl
  refine ⟨?_, ?_, h.2.2⟩
  · rw [h.1]
    simp [happ]
  · rw [← happ]
    exact h.2.1

/-- Witness for C10: a two-record storage, an empty update on id 1: the
result only moves `updated_at` to 5, and id 2 still reads its original
record. -/
theorem update_no_fields_refreshes_timestamp_only_witness :
    ((update_user ⟨[(1, ⟨1, "A", "a@x.com", 0, 0⟩), (2, ⟨2, "B", "b@x.com", 0, 0⟩)]⟩
        1 ⟨none, none⟩ 5).1 = .ok ⟨1, "A", "a@x.com", 0, 5⟩)
    ∧ (((update_user ⟨[(1, ⟨1, "A", "a@x.com", 0, 0⟩), (2, ⟨2, "B", "b@x.com", 0, 0⟩)]⟩
        1 ⟨none, none⟩ 5).2).get 2 = some ⟨2, "B", "b@x.com", 0, 0⟩) := by
  have h := update_no_fields_refreshes_timestamp_only
    ⟨[(1, ⟨1, "A", "a@x.com", 0, 0⟩), (2, ⟨2, "B", "b@x.com", 0, 0⟩)]⟩ 1
    ⟨1, "A", "a@x.com", 0, 0⟩ 5 (by decide)
  refine ⟨h.1, ?_⟩
  rw [h.2.2 2 (by decide)]
  decide

/-- C5: for an update supplying a (well-formed) email on an existing record:
if the normalized email is held by exactly one stored record and that record
has a different id, the handler returns Conflict and the storage — the
target record included — is unchanged; if the only holder is the target
record itself, the update succeeds without Conflict. -/
theorem update_email_conflict_rules (s : Storage) (id : Nat) (pn : Option String)
    (email : String) (now : Int) (u : User)
    (hget : s.get id = some u)
    (hne : Str.is_empty (Str.trim email) = false)
    (hat : Str.contains email '@' = true)
    (hname : ∀ n, pn = some n → Str.is_empty (Str.trim n) = false) :
    (∀ w, s.get_all.filter
          (fun v => v.email == Str.to_lowercase (Str.trim email)) = [w] →
        w.id ≠ id →
        update_user s id ⟨pn, some email⟩ now
          = (.error (.Conflict ("Email " ++ email ++ " is already in use")), s))
    ∧ (s.get_all.filter
          (fun v => v.email == Str.to_lowercase (Str.trim email)) = [u] →
        u.id = id →
        (update_user s id ⟨pn, some email⟩ now).1.isOk = true) := by
  constructor
  · intro w hw hwid
    have hfind := find?_of_filter_eq_singleton _ _ _ hw
    have hval : validate_update_email s id email
        = some (.Conflict ("Email " ++ email ++ " is already in use")) := by
      simp [validate_update_email, hne, hat, hfind, hwid]
    simp [update_user, hget, hval]
  · intro hu huid
    have hfind := find?_of_filter_eq_singleton _ _ _ hu
    have hval : validate_update_email s id email = none := by
      simp [validate_update_email, hne, hat, hfind, huid]
    have h := update_user_success_eq s id u ⟨pn, some email⟩ now hget
        (fun e he => Option.some.inj he ▸ hval) hname
    rw [h.1]
    rfl

/-- Witness for C5: in a two-record storage, updating id 1 to the other
record's email (in different casing) yields Conflict and no state change;
updating id 1 to its own email (in different casing) succeeds. -/
theorem update_email_conflict_rules_witness :
    (update_user ⟨[(1, ⟨1, "A", "a@x.com", 0, 0⟩), (2, ⟨2, "B", "b@x.com", 0, 0⟩)]⟩
        1 ⟨none, some "B@x.com"⟩ 5
      = (.error (.Conflict ("Email " ++ "B@x.com" ++ " is already in use")),
         ⟨[(1, ⟨1, "A", "a@x.com", 0, 0⟩), (2, ⟨2, "B", "b@x.com", 0, 0⟩)]⟩))
    ∧ ((update_user ⟨[(1, ⟨1, "A", "a@x.com", 0, 0⟩), (2, ⟨2, "B", "b@x.com", 0, 0⟩)]⟩
        1 ⟨none, some "A@x.com"⟩ 5).1.isOk = true) := by
  constructor
  · exact (update_email_conflict_rules
      ⟨[(1, ⟨1, "A", "a@x.com", 0, 0⟩), (2, ⟨2, "B", "b@x.com", 0, 0⟩)]⟩ 1 none
      "B@x.com" 5 ⟨1, "A", "a@x.com", 0, 0⟩
      (by decide) (by decide) (by decide) (fun n hn => nomatch hn)).1
      ⟨2, "B", "b@x.com", 0, 0⟩ (by decide) (by decide)
  · exact (update_email_conflict_rules
      ⟨[(1, ⟨1, "A", "a@x.com", 0, 0⟩), (2, ⟨2, "B", "b@x.com", 0, 0⟩)]⟩ 1 none
      "A@x.com" 5 ⟨1, "A", "a@x.com", 0, 0⟩
      (by decide) (by decide) (by decide) (fun n hn => nomatch hn)).2
      (by decide) rfl

/-- C7: after a successful delete of id X, reading X gives nothing and the
get handler answers NotFound, a second delete of X reports false and the
delete handler answers NotFound, and every other id reads exactly as
before the delete. -/
theorem delete_finality (s : Storage) (X : Nat)
    (hdel : (s.delete X).1 = true) :
    (((s.delete X).2).get X = none)
    ∧ (get_user ((s.delete X).2) X
        = .error (.NotFound ("User with id " ++ toString X ++ " not found")))
    ∧ ((((s.delete X).2).delete X).1 = false)
    ∧ (delete_user ((s.delete X).2) X
        = (.error (.NotFound ("User with id " ++ toString X ++ " not found")),
           (s.delete X).2))
    ∧ (∀ Y, Y ≠ X → ((s.delete X).2).get Y = s.get Y) := by
  cases hg : s.get X with
  | none =>
    rw [Storage.delete_eq_of_get_none s X hg] at hdel
    exact absurd hdel (by simp)
  | some u =>
    have hd := Storage.delete_eq_of_get_some s X u hg
    have h1 : ((s.delete X).2).get X = none := by
      rw [hd]
      rw [Storage.get_filter_out_key s X X]
      simp
    have h3 := Storage.delete_eq_of_get_none ((s.delete X).2) X h1
    refine ⟨h1, ?_, ?_, ?_, ?_⟩
    · simp [get_user, h1]
    · rw [h3]
    · simp [delete_user, h3]
    · intro Y hy
      rw [hd, Storage.get_filter_out_key s X Y, if_neg hy]

/-- Witness for C7: deleting id 1 from a two-record storage, then reading
id 1 gives nothing, deleting id 1 again reports false, and id 2 still reads
its original record. -/
theorem delete_finality_witness :
    (((⟨[(1, ⟨1, "A", "a@x.com", 0, 0⟩), (2, ⟨2, "B", "b@x.com", 0, 0⟩)]⟩ : Storage).delete
        1).2.get 1 = none)
    ∧ ((((⟨[(1, ⟨1, "A", "a@x.com", 0, 0⟩), (2, ⟨2, "B", "b@x.com", 0, 0⟩)]⟩ : Storage).delete
        1).2.delete 1).1 = false)
    ∧ (((⟨[(1, ⟨1, "A", "a@x.com", 0, 0⟩), (2, ⟨2, "B", "b@x.com", 0, 0⟩)]⟩ : Storage).delete
        1).2.get 2 = some ⟨2, "B", "b@x.com", 0, 0⟩) := by
  have h := delete_finality
    ⟨[(1, ⟨1, "A", "a@x.com", 0, 0⟩), (2, ⟨2, "B", "b@x.com", 0, 0⟩)]⟩ 1 (by decide)
  refine ⟨h.1, h.2.2.1, ?_⟩
  rw [h.2.2.2.2 2 (by decide)]
  decide

/-- C8: a create request that passes all four checks and whose generated id
is fresh returns a record carrying that id, the trimmed supplied name, the
trimmed-and-lowercased supplied email, and equal creation and update
timestamps (both the current time); the record is appended to storage under
its id, and reading that id back gives exactly the returned record. -/
theorem create_success_shape (s : Storage) (p : CreateUserRequest) (now : Int)
    (newId : Nat)
    (hn : Str.is_empty (Str.trim p.name) = false)
    (he : Str.is_empty (Str.trim p.email) = false)
    (hat : Str.contains p.email '@' = true)
    (hex : s.email_exists p.email = false)
    (hid : s.get newId = none) :
    (create_user s p now newId
      = (.ok ⟨newId, Str.trim p.name, Str.to_lowercase (Str.trim p.email), now, now⟩,
         ⟨s.users
           ++ [(newId, ⟨newId, Str.trim p.name, Str.to_lowercase (Str.trim p.email),
                 now, now⟩)]⟩))
    ∧ (((create_user s p now newId).2).get newId
        = some ⟨newId, Str.trim p.name, Str.to_lowercase (Str.trim p.email), now, now⟩) := by
  have hck := Storage.contains_key_eq_false_of_get_none s newId hid
  have hmain : create_user s p now newId
      = (.ok ⟨newId, Str.trim p.name, Str.to_lowercase (Str.trim p.email), now, now⟩,
         ⟨s.users
           ++ [(newId, ⟨newId, Str.trim p.name, Str.to_lowercase (Str.trim p.email),
                 now, now⟩)]⟩) := by
    simp [create_user, hn, he, hat, hex, Storage.create, hck]
  refine ⟨hmain, ?_⟩
  rw [hmain]
  exact Storage.get_append_self s newId _ hid

/-- Witness for C8: the spec's concrete scenario — creating
{name: "John Doe", email: "john@example.com"} at time 100 with generated id
7 returns exactly that data with both timestamps 100, and id 7 reads back
the same record. -/
theorem create_success_shape_witness :
    ((create_user Storage.new ⟨"John Doe", "john@example.com"⟩ 100 7).1
      = .ok ⟨7, "John Doe", "john@example.com", 100, 100⟩)
    ∧ (((create_user Storage.new ⟨"John Doe", "john@example.com"⟩ 100 7).2).get 7
      = some ⟨7, "John Doe", "john@example.com", 100, 100⟩) := by
  have h := create_success_shape Storage.new ⟨"John Doe", "john@example.com"⟩ 100 7
    (by decide) (by decide) (by decide) (by decide) (by decide)
  exact ⟨by rw [h.1]; rfl, h.2⟩

/-- C9: in the sequential single-lock-scope embedding, whenever the initial
existence check of the update handler succeeds, the defensive Internal
branch is dead code: `Storage.update` returns true with the id still
readable afterwards for every mutation, and `update_user` never returns an
Internal error, whatever the payload. -/
theorem update_internal_error_unreachable (s : Storage) (id : Nat) (u : User)
    (payload : UpdateUserRequest) (now : Int)
    (hget : s.get id = some u) :
    (∀ f, ((s.update id f).1 = true)
        ∧ ((((s.update id f).2).get id).isSome = true))
    ∧ (∀ msg, (update_user s id payload now).1 ≠ .error (.Internal msg)) := by
  constructor
  · intro f
    constructor
    · rw [Storage.update_eq_of_get_some s id u f hget]
    · have hr := Storage.get_update_of_get_some s id u f hget id
      rw [hget] at hr
      rw [hr]
      rfl
  · intro msg hcontra
    obtain ⟨pname, pemail⟩ := payload
    cases hpe : pemail with
    | some e0 =>
      cases hv : validate_update_email s id e0 with
      | some err =>
        rw [hpe] at hcontra
        simp [update_user, hget, hv] at hcontra
        exact validate_update_email_ne_internal s id e0 msg (hcontra ▸ hv)
      | none =>
        cases hpn : pname with
        | none =>
          have h := update_user_success_eq s id u ⟨none, some e0⟩ now hget
            (fun e he => Option.some.inj he ▸ hv) (fun n hn => nomatch hn)
          rw [hpe, hpn] at hcontra
          rw [h.1] at hcontra
          exact Except.noConfusion hcontra
        | some n =>
          cases hni : Str.is_empty (Str.trim n) with
          | true =>
            rw [hpe, hpn] at hcontra
            simp [update_user, hget, hv, hni] at hcontra
          | false =>
            have h := update_user_success_eq s id u ⟨some n, some e0⟩ now hget
              (fun e he => Option.some.inj he ▸ hv)
              (fun n2 hn2 => Option.some.inj hn2 ▸ hni)
            rw [hpe, hpn] at hcontra
            rw [h.1] at hcontra
            exact Except.noConfusion hcontra
    | none =>
      cases hpn : pname with
      | none =>
        have h := update_user_success_eq s id u ⟨none, none⟩ now hget
          (fun e he => nomatch he) (fun n hn => nomatch hn)
        rw [hpe, hpn] at hcontra
        rw [h.1] at hcontra
        exact Except.noConfusion hcontra
      | some n =>
        cases hni : Str.is_empty (Str.trim n) with
        | true =>
          rw [hpe, hpn] at hcontra
          simp [update_user, hget, hni] at hcontra
        | false =>
          have h := update_user_success_eq s id u ⟨some n, none⟩ now hget
            (fun e he => nomatch he) (fun n2 hn2 => Option.some.inj hn2 ▸ hni)
          rw [hpe, hpn] at hcontra
          rw [h.1] at hcontra
          exact Except.noConfusion hcontra

/-- Witness for C9: on a concrete single-record storage the storage-level
update of id 1 returns true with the record still readable, and a concrete
update request cannot produce the handler's "Failed to update user"
Internal error. -/
theorem update_internal_error_unreachable_witness :
    (((⟨[(1, ⟨1, "A", "a@x.com", 0, 0⟩)]⟩ : Storage).update 1 (fun v => v)).1 = true)
    ∧ ((update_user ⟨[(1, ⟨1, "A", "a@x.com", 0, 0⟩)]⟩ 1 ⟨none, none⟩ 5).1
        ≠ .error (.Internal "Failed to update user")) := by
  have h := update_internal_error_unreachable ⟨[(1, ⟨1, "A", "a@x.com", 0, 0⟩)]⟩ 1
    ⟨1, "A", "a@x.com", 0, 0⟩ ⟨none, none⟩ 5 (by decide)
  exact ⟨(h.1 (fun v => v)).1, h.2 "Failed to update user"⟩

end RustApi
